import Mathlib

/-!
Shallow embedding of the matching-buffer crate (src/lib.rs): a streaming
subject buffer that feeds an incremental pattern matcher. Bytes are modelled
as `Nat`, the owned byte region `Box<[u8]>` as `List Nat` (whose length is the
capacity), `usize` fields as `Nat`, and the `i128` source offset as `Int`
(no i128 arithmetic in the source can overflow its width for reachable
states, since all quantities derive from usize values and one negation).
The input source (`std::io::Read`) is modelled as a function from the
requested byte count to either an I/O error or the list of bytes obtained;
a well-behaved source never returns more bytes than requested (`SrcOk`).
-/

set_option autoImplicit false

deriving instance DecidableEq for Except

namespace MatchingBuffer

/-- Writing a slice into a byte region: `dst[dstPos .. dstPos + src.length] = src`,
the rest of `dst` unchanged. This models both `copy_from_slice` into a
subslice starting at `dstPos` and `copy_within(range, 0)` (with `src` the
extracted range). Out-of-range portions are clamped; the in-bounds side
conditions under which the Rust slice operations do not panic are stated
separately as `ReadInBounds`. -/
def copyFromSlice (dst : List Nat) (dstPos : Nat) (src : List Nat) : List Nat :=
  dst.take dstPos ++ src.take (dst.length - dstPos) ++ dst.drop (dstPos + src.length)

/-- The buffer's current content, mirroring `SubjectBufferSnapshot`. -/
structure SubjectBufferSnapshot where
  buffer : List Nat
  match_offset : Nat
deriving DecidableEq

/-- Mirrors `struct SubjectBuffer` (src/lib.rs lines 7-29). The capacity of
the Rust `buffer: Box<[u8]>` is `buffer.length` here. -/
structure SubjectBuffer where
  buffer : List Nat
  min_capacity : Nat
  max_capacity : Nat
  max_lookbehind : Nat
  len : Nat
  match_offset : Nat
  source_offset : Int
deriving DecidableEq

/-- Construction failure (`InvalidConfig`); the Rust code returns boxed
`std::io::Error`s whose only distinction is the message. -/
inductive NewError where
  | invalidConfig
deriving DecidableEq

/-- Failures of `read`: capacity growth beyond `max_capacity`, or an error
propagated from the input source. -/
inductive ReadError where
  | capacityExceeded
  | sourceIoError
deriving DecidableEq

/-- Mirrors `SubjectBuffer::new` (src/lib.rs lines 32-51). -/
def SubjectBuffer.new (min_capacity max_capacity max_lookbehind : Nat) :
    Except NewError SubjectBuffer :=
  if min_capacity = 0 then
    .error .invalidConfig
  else if min_capacity ≤ max_lookbehind then
    .error .invalidConfig
  else
    .ok {
      buffer := List.replicate max_lookbehind 0
      min_capacity := min_capacity
      max_capacity := max_capacity
      max_lookbehind := max_lookbehind
      len := max_lookbehind
      match_offset := max_lookbehind
      source_offset := -(max_lookbehind : Int)
    }

/-- Steps 1-2 of `SubjectBuffer::read` (src/lib.rs lines 94-126), after
`self.match_offset` has been set to the caller's `new_match_offset`:
either grow the storage (match offset within the lookbehind region) or
discard consumed bytes and shift left. -/
def SubjectBuffer.adjust (s : SubjectBuffer) : Except ReadError SubjectBuffer :=
  if s.match_offset ≤ s.max_lookbehind then
    if s.buffer.length < s.min_capacity then
      .ok { s with buffer := copyFromSlice (List.replicate s.min_capacity 0) 0 (s.buffer.take s.len) }
    else if s.max_capacity < s.buffer.length * 2 then
      .error .capacityExceeded
    else
      .ok { s with buffer := copyFromSlice (List.replicate (s.buffer.length * 2) 0) 0 (s.buffer.take s.len) }
  else
    let num_bytes_discarded := s.match_offset - s.max_lookbehind
    .ok { s with
      buffer := copyFromSlice s.buffer 0 ((s.buffer.drop num_bytes_discarded).take (s.len - num_bytes_discarded))
      len := s.len - num_bytes_discarded
      match_offset := s.match_offset - num_bytes_discarded
      source_offset := s.source_offset + (num_bytes_discarded : Int) }

/-- The state produced by the grow branch of `adjust` when the capacity is
still below `min_capacity`, for entry state `s` and match position `mo`. -/
def growMinState (s : SubjectBuffer) (mo : Nat) : SubjectBuffer :=
  { s with
    match_offset := mo
    buffer := copyFromSlice (List.replicate s.min_capacity 0) 0 (s.buffer.take s.len) }

/-- The state produced by the grow branch of `adjust` in the doubling case,
for entry state `s` and match position `mo`. -/
def growDoubleState (s : SubjectBuffer) (mo : Nat) : SubjectBuffer :=
  { s with
    match_offset := mo
    buffer := copyFromSlice (List.replicate (s.buffer.length * 2) 0) 0 (s.buffer.take s.len) }

/-- The state produced by the shift branch of `adjust`, for entry state `s`
and match position `mo`. -/
def shiftState (s : SubjectBuffer) (mo : Nat) : SubjectBuffer :=
  { s with
    buffer := copyFromSlice s.buffer 0
      ((s.buffer.drop (mo - s.max_lookbehind)).take (s.len - (mo - s.max_lookbehind)))
    len := s.len - (mo - s.max_lookbehind)
    match_offset := mo - (mo - s.max_lookbehind)
    source_offset := s.source_offset + ((mo - s.max_lookbehind : Nat) : Int) }

/-- Step 3 of `SubjectBuffer::read` (src/lib.rs lines 128-137): fill the tail
space `buffer[len .. capacity]` from the input source; `srcFn` is given the
size of that destination slice and answers with the bytes obtained (zero
bytes meaning the source is exhausted) or an I/O error. -/
def SubjectBuffer.fill (s : SubjectBuffer) (srcFn : Nat → Except Unit (List Nat)) :
    SubjectBuffer × Except ReadError Bool :=
  match srcFn (s.buffer.length - s.len) with
  | .error _ => (s, .error .sourceIoError)
  | .ok bytes =>
      ({ s with buffer := copyFromSlice s.buffer s.len bytes, len := s.len + bytes.length },
       .ok (bytes.length == 0))

/-- Mirrors `SubjectBuffer::read` (src/lib.rs lines 85-138). The first
component of the result is the buffer after the call (in Rust, `self` is
mutated in place, also on the error paths); the second is
`Result<bool, _>`. -/
def SubjectBuffer.read (s : SubjectBuffer) (new_match_offset : Nat)
    (srcFn : Nat → Except Unit (List Nat)) : SubjectBuffer × Except ReadError Bool :=
  match ({ s with match_offset := new_match_offset } : SubjectBuffer).adjust with
  | .error e => ({ s with match_offset := new_match_offset }, .error e)
  | .ok s2 => s2.fill srcFn

/-- Mirrors `SubjectBuffer::bytes_to_process` (src/lib.rs lines 141-145):
`&buffer[match_offset .. len]`. -/
def SubjectBuffer.bytes_to_process (s : SubjectBuffer) : List Nat :=
  (s.buffer.drop s.match_offset).take (s.len - s.match_offset)

/-- Mirrors `SubjectBuffer::get_snapshot` (src/lib.rs lines 151-158). -/
def SubjectBuffer.get_snapshot (s : SubjectBuffer) : SubjectBufferSnapshot :=
  { buffer := s.buffer.take s.len, match_offset := s.match_offset }

/-- Mirrors `SubjectBuffer::verify_match` (src/lib.rs lines 163-168). -/
def SubjectBuffer.verify_match (s : SubjectBuffer) (match_begin_with_lookbehind : Nat) : Bool :=
  if 0 ≤ s.source_offset then
    true
  else
    decide ((match_begin_with_lookbehind : Int) ≥ -s.source_offset)

/-- Mirrors `SubjectBuffer::get_absolute_offset` (src/lib.rs lines 172-174). -/
def SubjectBuffer.get_absolute_offset (s : SubjectBuffer) (match_offset : Nat) : Int :=
  (match_offset : Int) + s.source_offset

/-- A well-behaved input source never returns more bytes than the requested
destination size (the contract of `std::io::Read::read`). -/
def SrcOk (srcFn : Nat → Except Unit (List Nat)) : Prop :=
  ∀ n bytes, srcFn n = .ok bytes → bytes.length ≤ n

/-- The window invariants maintained by construction and by every successful
contract-obeying `read`: the valid length fits the capacity and the stored
match offset lies between the lookbehind and the valid length. -/
def Inv (s : SubjectBuffer) : Prop :=
  s.len ≤ s.buffer.length ∧ s.max_lookbehind ≤ s.match_offset ∧ s.match_offset ≤ s.len

instance (s : SubjectBuffer) : Decidable (Inv s) := by
  unfold Inv
  infer_instance

/-- In-bounds conditions for every slice operation performed by `read` with
argument `mo`: `new_buffer[0..len]` / `self.buffer[0..len]` in the grow
branch (only when that branch does not fail first), `copy_within(d..len, 0)`
in the shift branch, and the tail slice `buffer[len..capacity]` passed to
the source (its bound coincides with the grow/shift conditions since the
post-step length never exceeds the post-step capacity under them). -/
def ReadInBounds (s : SubjectBuffer) (mo : Nat) : Prop :=
  (mo ≤ s.max_lookbehind →
    s.len ≤ s.buffer.length ∧
    (s.buffer.length < s.min_capacity → s.len ≤ s.min_capacity) ∧
    (s.min_capacity ≤ s.buffer.length → s.buffer.length * 2 ≤ s.max_capacity →
      s.len ≤ s.buffer.length * 2)) ∧
  (s.max_lookbehind < mo → mo - s.max_lookbehind ≤ s.len ∧ s.len ≤ s.buffer.length)

theorem copyFromSlice_length (dst : List Nat) (p : Nat) (src : List Nat) :
    (copyFromSlice dst p src).length = dst.length := by
  simp [copyFromSlice]
  omega

theorem copyFromSlice_take_front (dst : List Nat) (p k : Nat) (src : List Nat)
    (hk : k ≤ p) (hp : p ≤ dst.length) :
    (copyFromSlice dst p src).take k = dst.take k := by
  unfold copyFromSlice
  rw [List.append_assoc, List.take_append_eq_append_take, List.take_take,
    min_eq_left hk, List.length_take, min_eq_left hp, Nat.sub_eq_zero_of_le hk,
    List.take_zero, List.append_nil]

theorem copyFromSlice_zero (dst w : List Nat) (h : w.length ≤ dst.length) :
    copyFromSlice dst 0 w = w ++ dst.drop w.length := by
  unfold copyFromSlice
  simp [List.take_of_length_le h]

theorem read_adjust_error (s : SubjectBuffer) (mo : Nat) (srcFn : Nat → Except Unit (List Nat))
    (e : ReadError) (h : ({ s with match_offset := mo } : SubjectBuffer).adjust = .error e) :
    s.read mo srcFn = ({ s with match_offset := mo }, .error e) := by
  unfold SubjectBuffer.read
  rw [h]

theorem read_adjust_ok (s : SubjectBuffer) (mo : Nat) (srcFn : Nat → Except Unit (List Nat))
    (s2 : SubjectBuffer) (h : ({ s with match_offset := mo } : SubjectBuffer).adjust = .ok s2) :
    s.read mo srcFn = s2.fill srcFn := by
  unfold SubjectBuffer.read
  rw [h]

theorem adjust_grow_min (s : SubjectBuffer) (mo : Nat) (hmo : mo ≤ s.max_lookbehind)
    (hcap : s.buffer.length < s.min_capacity) :
    ({ s with match_offset := mo } : SubjectBuffer).adjust = .ok (growMinState s mo) := by
  unfold SubjectBuffer.adjust growMinState
  simp only [if_pos hmo, if_pos hcap]

theorem adjust_grow_double (s : SubjectBuffer) (mo : Nat) (hmo : mo ≤ s.max_lookbehind)
    (hcap : s.min_capacity ≤ s.buffer.length) (hmax : s.buffer.length * 2 ≤ s.max_capacity) :
    ({ s with match_offset := mo } : SubjectBuffer).adjust = .ok (growDoubleState s mo) := by
  unfold SubjectBuffer.adjust growDoubleState
  simp only [if_pos hmo, if_neg (by omega : ¬s.buffer.length < s.min_capacity),
    if_neg (by omega : ¬s.max_capacity < s.buffer.length * 2)]

theorem adjust_capacity_exceeded (s : SubjectBuffer) (mo : Nat) (hmo : mo ≤ s.max_lookbehind)
    (hcap : s.min_capacity ≤ s.buffer.length) (hmax : s.max_capacity < s.buffer.length * 2) :
    ({ s with match_offset := mo } : SubjectBuffer).adjust = .error .capacityExceeded := by
  unfold SubjectBuffer.adjust
  simp only [if_pos hmo, if_neg (by omega : ¬s.buffer.length < s.min_capacity), if_pos hmax]

theorem adjust_shift (s : SubjectBuffer) (mo : Nat) (hmo : s.max_lookbehind < mo) :
    ({ s with match_offset := mo } : SubjectBuffer).adjust = .ok (shiftState s mo) := by
  unfold SubjectBuffer.adjust shiftState
  simp only [if_neg (by omega : ¬mo ≤ s.max_lookbehind)]

theorem fill_eq_cases (s : SubjectBuffer) (srcFn : Nat → Except Unit (List Nat)) :
    (∃ u, srcFn (s.buffer.length - s.len) = .error u ∧
      s.fill srcFn = (s, .error .sourceIoError)) ∨
    (∃ bytes, srcFn (s.buffer.length - s.len) = .ok bytes ∧
      s.fill srcFn = ({ s with
          buffer := copyFromSlice s.buffer s.len bytes
          len := s.len + bytes.length },
        .ok (bytes.length == 0))) := by
  unfold SubjectBuffer.fill
  cases h : srcFn (s.buffer.length - s.len) with
  | error u => exact .inl ⟨u, rfl, rfl⟩
  | ok bytes => exact .inr ⟨bytes, rfl, rfl⟩

theorem fill_ne_capacityExceeded (s : SubjectBuffer) (srcFn : Nat → Except Unit (List Nat)) :
    (s.fill srcFn).2 ≠ .error .capacityExceeded := by
  rcases fill_eq_cases s srcFn with ⟨u, _, h⟩ | ⟨bytes, _, h⟩ <;> rw [h] <;> simp

theorem fill_buffer_length (s : SubjectBuffer) (srcFn : Nat → Except Unit (List Nat)) :
    (s.fill srcFn).1.buffer.length = s.buffer.length := by
  rcases fill_eq_cases s srcFn with ⟨u, _, h⟩ | ⟨bytes, _, h⟩ <;> rw [h] <;>
    simp [copyFromSlice_length]

theorem fill_take_front (s : SubjectBuffer) (srcFn : Nat → Except Unit (List Nat))
    (k : Nat) (hk : k ≤ s.len) (hlen : s.len ≤ s.buffer.length) :
    (s.fill srcFn).1.buffer.take k = s.buffer.take k := by
  rcases fill_eq_cases s srcFn with ⟨u, _, h⟩ | ⟨bytes, _, h⟩ <;> rw [h]
  exact copyFromSlice_take_front _ _ _ _ hk hlen

theorem fill_match_offset (s : SubjectBuffer) (srcFn : Nat → Except Unit (List Nat)) :
    (s.fill srcFn).1.match_offset = s.match_offset := by
  rcases fill_eq_cases s srcFn with ⟨u, _, h⟩ | ⟨bytes, _, h⟩ <;> rw [h]

theorem fill_source_offset (s : SubjectBuffer) (srcFn : Nat → Except Unit (List Nat)) :
    (s.fill srcFn).1.source_offset = s.source_offset := by
  rcases fill_eq_cases s srcFn with ⟨u, _, h⟩ | ⟨bytes, _, h⟩ <;> rw [h]

theorem fill_max_lookbehind (s : SubjectBuffer) (srcFn : Nat → Except Unit (List Nat)) :
    (s.fill srcFn).1.max_lookbehind = s.max_lookbehind := by
  rcases fill_eq_cases s srcFn with ⟨u, _, h⟩ | ⟨bytes, _, h⟩ <;> rw [h]

theorem fill_len_ge (s : SubjectBuffer) (srcFn : Nat → Except Unit (List Nat)) :
    s.len ≤ (s.fill srcFn).1.len := by
  rcases fill_eq_cases s srcFn with ⟨u, _, h⟩ | ⟨bytes, _, h⟩ <;> rw [h] <;> simp

theorem fill_ok_cases (s : SubjectBuffer) (srcFn : Nat → Except Unit (List Nat)) (b : Bool)
    (h : (s.fill srcFn).2 = .ok b) :
    ∃ bytes, srcFn (s.buffer.length - s.len) = .ok bytes ∧ b = (bytes.length == 0) ∧
      (s.fill srcFn).1.len = s.len + bytes.length := by
  rcases fill_eq_cases s srcFn with ⟨u, _, he⟩ | ⟨bytes, hb, he⟩
  · rw [he] at h
    exact absurd h (by simp)
  · rw [he] at h ⊢
    exact ⟨bytes, hb, by simpa using h.symm, rfl⟩

/-- C1: a `read` whose match position lies within the lookbehind region grows
the storage: to `min_capacity` when the capacity is still below it, otherwise
to double the capacity; the call fails with `CapacityExceeded` exactly in the
doubling case when the doubled capacity exceeds `max_capacity` (growth to
`min_capacity` is never checked against `max_capacity`); whenever it does not
fail that way, the first `len` bytes of storage are preserved and the stored
match position equals the passed `new_match_offset`, untouched by the growth. -/
theorem read_grow_characterization (s : SubjectBuffer) (mo : Nat)
    (srcFn : Nat → Except Unit (List Nat))
    (hmo : mo ≤ s.max_lookbehind) (hlen : s.len ≤ s.buffer.length) :
    ((s.read mo srcFn).2 = .error .capacityExceeded ↔
      s.min_capacity ≤ s.buffer.length ∧ s.max_capacity < s.buffer.length * 2) ∧
    ((s.read mo srcFn).2 ≠ .error .capacityExceeded →
      (s.read mo srcFn).1.buffer.length =
        (if s.buffer.length < s.min_capacity then s.min_capacity else s.buffer.length * 2) ∧
      (s.read mo srcFn).1.buffer.take s.len = s.buffer.take s.len ∧
      (s.read mo srcFn).1.match_offset = mo) := by
  have hwlen : (s.buffer.take s.len).length = s.len := by
    rw [List.length_take]
    omega
  by_cases hcap : s.buffer.length < s.min_capacity
  · rw [read_adjust_ok s mo srcFn _ (adjust_grow_min s mo hmo hcap)]
    have hglen : (growMinState s mo).buffer.length = s.min_capacity := by
      simp only [growMinState, copyFromSlice_length, List.length_replicate]
    have hgrown : (growMinState s mo).len ≤ (growMinState s mo).buffer.length := by
      rw [hglen]
      show s.len ≤ s.min_capacity
      omega
    refine ⟨⟨fun h => absurd h (fill_ne_capacityExceeded _ _), fun h => absurd h.1 (by omega)⟩,
      fun _ => ⟨?_, ?_, ?_⟩⟩
    · rw [fill_buffer_length, hglen, if_pos hcap]
    · rw [fill_take_front (growMinState s mo) srcFn s.len (le_refl s.len) hgrown]
      simp only [growMinState]
      rw [copyFromSlice_zero _ _ (by rw [hwlen, List.length_replicate]; omega),
        List.take_left' hwlen]
    · rw [fill_match_offset]
      rfl
  · by_cases hmax : s.max_capacity < s.buffer.length * 2
    · rw [read_adjust_error s mo srcFn _ (adjust_capacity_exceeded s mo hmo (by omega) hmax)]
      exact ⟨⟨fun _ => ⟨by omega, hmax⟩, fun _ => rfl⟩, fun h => absurd rfl h⟩
    · rw [read_adjust_ok s mo srcFn _ (adjust_grow_double s mo hmo (by omega) (by omega))]
      have hglen : (growDoubleState s mo).buffer.length = s.buffer.length * 2 := by
        simp only [growDoubleState, copyFromSlice_length, List.length_replicate]
      have hgrown : (growDoubleState s mo).len ≤ (growDoubleState s mo).buffer.length := by
        rw [hglen]
        show s.len ≤ s.buffer.length * 2
        omega
      refine ⟨⟨fun h => absurd h (fill_ne_capacityExceeded _ _), fun h => absurd h.2 (by omega)⟩,
        fun _ => ⟨?_, ?_, ?_⟩⟩
      · rw [fill_buffer_length, hglen, if_neg hcap]
      · rw [fill_take_front (growDoubleState s mo) srcFn s.len (le_refl s.len) hgrown]
        simp only [growDoubleState]
        rw [copyFromSlice_zero _ _ (by rw [hwlen, List.length_replicate]; omega),
          List.take_left' hwlen]
      · rw [fill_match_offset]
        rfl

/-- Witness for C1: growing a full two-byte window (capacity 2, minimum 2,
maximum 4) doubles its capacity to 4. -/
theorem read_grow_characterization_witness :
    ((⟨[0, 0], 2, 4, 0, 2, 0, 0⟩ : SubjectBuffer).read 0
      (fun _ => Except.ok [])).1.buffer.length = 4 :=
  ((read_grow_characterization ⟨[0, 0], 2, 4, 0, 2, 0, 0⟩ 0 (fun _ => Except.ok [])
    (by decide) (by decide)).2 (by decide)).1

/-- C2: a `read` whose match position exceeds the lookbehind discards
`d = match_position - max_lookbehind > 0` bytes: the grow-or-shift step moves
bytes `[d, len)` to the front and reduces the length by `d` (the subsequent
fill step then adds the bytes obtained from the source after them), the
stored match position decreases by `d`, the source offset increases by `d`,
and the capacity is unchanged; the moved bytes are still at the front of the
final storage. -/
theorem read_shift_characterization (s : SubjectBuffer) (mo : Nat)
    (srcFn : Nat → Except Unit (List Nat))
    (hmo : s.max_lookbehind < mo) (hlen : mo ≤ s.len) (hcap : s.len ≤ s.buffer.length) :
    0 < mo - s.max_lookbehind ∧
    (∃ s2, ({ s with match_offset := mo } : SubjectBuffer).adjust = .ok s2 ∧
      s2.len = s.len - (mo - s.max_lookbehind) ∧
      s2.buffer.length = s.buffer.length ∧
      s.read mo srcFn = s2.fill srcFn) ∧
    (s.read mo srcFn).1.buffer.take (s.len - (mo - s.max_lookbehind)) =
      (s.buffer.drop (mo - s.max_lookbehind)).take (s.len - (mo - s.max_lookbehind)) ∧
    (s.read mo srcFn).1.match_offset = mo - (mo - s.max_lookbehind) ∧
    (s.read mo srcFn).1.source_offset =
      s.source_offset + ((mo - s.max_lookbehind : Nat) : Int) ∧
    (s.read mo srcFn).1.buffer.length = s.buffer.length := by
  have hadj := adjust_shift s mo hmo
  have hread := read_adjust_ok s mo srcFn _ hadj
  rw [hread]
  have hwlen : ((s.buffer.drop (mo - s.max_lookbehind)).take
      (s.len - (mo - s.max_lookbehind))).length = s.len - (mo - s.max_lookbehind) := by
    rw [List.length_take, List.length_drop]
    omega
  have hblen : (shiftState s mo).buffer.length = s.buffer.length := by
    simp only [shiftState, copyFromSlice_length]
  have hslen : (shiftState s mo).len ≤ (shiftState s mo).buffer.length := by
    rw [hblen]
    show s.len - (mo - s.max_lookbehind) ≤ s.buffer.length
    omega
  refine ⟨by omega, ⟨shiftState s mo, hadj, rfl, hblen, rfl⟩, ?_, ?_, ?_, ?_⟩
  · rw [fill_take_front (shiftState s mo) srcFn (s.len - (mo - s.max_lookbehind))
      (le_refl _) hslen]
    simp only [shiftState]
    rw [copyFromSlice_zero _ _ (by rw [hwlen]; omega), List.take_left' hwlen]
  · rw [fill_match_offset]
    rfl
  · rw [fill_source_offset]
    rfl
  · rw [fill_buffer_length, hblen]

/-- Witness for C2: discarding one byte from a three-byte window with
lookbehind 1 advances the source offset from 5 to 6. -/
theorem read_shift_characterization_witness :
    ((⟨[1, 2, 3], 3, 3, 1, 3, 1, 5⟩ : SubjectBuffer).read 2
      (fun _ => Except.ok [])).1.source_offset = (5 : Int) + ((2 - 1 : Nat) : Int) :=
  (read_shift_characterization ⟨[1, 2, 3], 3, 3, 1, 3, 1, 5⟩ 2 (fun _ => Except.ok [])
    (by decide) (by decide) (by decide)).2.2.2.2.1

theorem adjust_error_inv (s : SubjectBuffer) (e : ReadError) (h : s.adjust = .error e) :
    e = .capacityExceeded ∧ s.match_offset ≤ s.max_lookbehind := by
  unfold SubjectBuffer.adjust at h
  by_cases hmo : s.match_offset ≤ s.max_lookbehind
  · rw [if_pos hmo] at h
    by_cases hcap : s.buffer.length < s.min_capacity
    · rw [if_pos hcap] at h
      simp at h
    · rw [if_neg hcap] at h
      by_cases hmax : s.max_capacity < s.buffer.length * 2
      · rw [if_pos hmax] at h
        injection h with h2
        exact ⟨h2.symm, hmo⟩
      · rw [if_neg hmax] at h
        simp at h
  · rw [if_neg hmo] at h
    simp at h

/-- C3 counterexample: a successful `read` can return a `false` completion
flag while leaving the window length unchanged — here one byte is discarded
and one byte is obtained, so the length stays 1. -/
theorem read_false_no_growth_cex :
    ((⟨[72], 1, 0, 0, 1, 0, 0⟩ : SubjectBuffer).read 1
      (fun n => Except.ok (List.take n [101]))).2 = Except.ok false ∧
    ((⟨[72], 1, 0, 0, 1, 0, 0⟩ : SubjectBuffer).read 1
      (fun n => Except.ok (List.take n [101]))).1.len =
      (⟨[72], 1, 0, 0, 1, 0, 0⟩ : SubjectBuffer).len := by
  decide

/-- C3 (amended): for every successful `read`, the completion flag is true
iff the fill step obtained zero bytes from the source; a false flag implies
the fill step strictly increased the length from its post-grow/shift value
(the length over the whole call may still fail to increase, since the shift
step can discard more bytes than the fill obtains). -/
theorem read_completion_flag (s : SubjectBuffer) (mo : Nat)
    (srcFn : Nat → Except Unit (List Nat)) (b : Bool)
    (h : (s.read mo srcFn).2 = .ok b) :
    ∃ s2 bytes, ({ s with match_offset := mo } : SubjectBuffer).adjust = .ok s2 ∧
      srcFn (s2.buffer.length - s2.len) = .ok bytes ∧
      (b = true ↔ bytes.length = 0) ∧
      (s.read mo srcFn).1.len = s2.len + bytes.length ∧
      (b = false → s2.len < (s.read mo srcFn).1.len) := by
  cases hadj : ({ s with match_offset := mo } : SubjectBuffer).adjust with
  | error e =>
    rw [read_adjust_error s mo srcFn e hadj] at h
    exact absurd h (by simp)
  | ok s2 =>
    have hread := read_adjust_ok s mo srcFn s2 hadj
    rw [hread] at h ⊢
    obtain ⟨bytes, hb, hbe, hlen⟩ := fill_ok_cases s2 srcFn b h
    subst hbe
    refine ⟨s2, bytes, rfl, hb, by simp, hlen, ?_⟩
    intro hf
    rw [hlen]
    simp only [beq_eq_false_iff_ne, ne_eq] at hf
    omega

/-- Witness for C3 (amended) at the same concrete run as the counterexample:
one byte discarded, one byte obtained, flag false. -/
theorem read_completion_flag_witness :
    ∃ s2 bytes,
      (⟨[72], 1, 0, 0, 1, 1, 0⟩ : SubjectBuffer).adjust = .ok s2 ∧
      (fun n => (Except.ok (List.take n [101]) : Except Unit (List Nat)))
        (s2.buffer.length - s2.len) = Except.ok bytes ∧
      (false = true ↔ bytes.length = 0) ∧
      ((⟨[72], 1, 0, 0, 1, 0, 0⟩ : SubjectBuffer).read 1
        (fun n => (Except.ok (List.take n [101]) : Except Unit (List Nat)))).1.len =
        s2.len + bytes.length ∧
      (false = false →
        s2.len < ((⟨[72], 1, 0, 0, 1, 0, 0⟩ : SubjectBuffer).read 1
          (fun n => (Except.ok (List.take n [101]) : Except Unit (List Nat)))).1.len) :=
  read_completion_flag ⟨[72], 1, 0, 0, 1, 0, 0⟩ 1
    (fun n => (Except.ok (List.take n [101]) : Except Unit (List Nat))) false (by decide)

/-- C4 counterexample: a `read` that fails with `SourceIoError` after the
shift step leaves the window mutated — here the source offset has moved
from 0 to 2 even though the call returned an error. -/
theorem read_error_mutation_cex :
    ((⟨[7, 8], 2, 4, 0, 2, 0, 0⟩ : SubjectBuffer).read 2
      (fun _ => Except.error ())).2 = Except.error ReadError.sourceIoError ∧
    ((⟨[7, 8], 2, 4, 0, 2, 0, 0⟩ : SubjectBuffer).read 2
      (fun _ => Except.error ())).1.source_offset ≠
      (⟨[7, 8], 2, 4, 0, 2, 0, 0⟩ : SubjectBuffer).source_offset := by
  decide

/-- C4 (amended): a `read` failing with `CapacityExceeded` leaves the window
exactly as it was before the call (under the caller contract the assignment
of the stored match position is the identity); a `read` failing with
`SourceIoError` leaves exactly the state produced by the grow-or-shift step,
with no bytes added by the fill step — but that grow or shift mutation does
persist, so the window is well-defined though not always the pre-call one. -/
theorem read_error_state (s : SubjectBuffer) (mo : Nat)
    (srcFn : Nat → Except Unit (List Nat))
    (h1 : s.max_lookbehind ≤ s.match_offset) (h2 : s.match_offset ≤ mo) :
    ((s.read mo srcFn).2 = .error .capacityExceeded → (s.read mo srcFn).1 = s) ∧
    ((s.read mo srcFn).2 = .error .sourceIoError →
      ∃ s2, ({ s with match_offset := mo } : SubjectBuffer).adjust = .ok s2 ∧
        (s.read mo srcFn).1 = s2) := by
  cases hadj : ({ s with match_offset := mo } : SubjectBuffer).adjust with
  | error e =>
    rw [read_adjust_error s mo srcFn e hadj]
    obtain ⟨he, hmo⟩ := adjust_error_inv _ e hadj
    subst he
    have hmo2 : mo ≤ s.max_lookbehind := by simpa using hmo
    constructor
    · intro _
      have hmoeq : mo = s.match_offset := by omega
      rw [hmoeq]
    · intro hco
      exact absurd hco (by simp)
  | ok s2 =>
    rw [read_adjust_ok s mo srcFn s2 hadj]
    constructor
    · intro hc
      exact absurd hc (fill_ne_capacityExceeded _ _)
    · intro hio
      rcases fill_eq_cases s2 srcFn with ⟨u, _, he⟩ | ⟨bytes, _, he⟩
      · rw [he]
        exact ⟨s2, rfl, rfl⟩
      · rw [he] at hio
        exact absurd hio (by simp)

/-- Witness for C4 (amended): a capacity-exceeded failure at a full window
with maximum capacity 3 leaves the window untouched. -/
theorem read_error_state_witness :
    (((⟨[0, 0], 2, 3, 0, 0, 0, 0⟩ : SubjectBuffer).read 0 (fun _ => Except.ok [])).2 =
        Except.error ReadError.capacityExceeded →
      ((⟨[0, 0], 2, 3, 0, 0, 0, 0⟩ : SubjectBuffer).read 0 (fun _ => Except.ok [])).1 =
        ⟨[0, 0], 2, 3, 0, 0, 0, 0⟩) ∧
    (((⟨[0, 0], 2, 3, 0, 0, 0, 0⟩ : SubjectBuffer).read 0 (fun _ => Except.ok [])).2 =
        Except.error ReadError.sourceIoError →
      ∃ s2, (⟨[0, 0], 2, 3, 0, 0, 0, 0⟩ : SubjectBuffer).adjust = .ok s2 ∧
        ((⟨[0, 0], 2, 3, 0, 0, 0, 0⟩ : SubjectBuffer).read 0 (fun _ => Except.ok [])).1 = s2) :=
  read_error_state ⟨[0, 0], 2, 3, 0, 0, 0, 0⟩ 0 (fun _ => Except.ok [])
    (by decide) (by decide)

/-- C5: `new` fails (with `InvalidConfig`) iff `min_capacity = 0` or
`min_capacity ≤ max_lookbehind`; the right-hand side does not mention
`max_capacity`, so `max_capacity` is never validated at construction — in
particular any configuration with `max_capacity < min_capacity` and an
otherwise valid minimum is accepted. -/
theorem new_characterization (min_capacity max_capacity max_lookbehind : Nat) :
    SubjectBuffer.new min_capacity max_capacity max_lookbehind =
        .error .invalidConfig ↔
      min_capacity = 0 ∨ min_capacity ≤ max_lookbehind := by
  unfold SubjectBuffer.new
  by_cases h0 : min_capacity = 0
  · rw [if_pos h0]
    simp [h0]
  · rw [if_neg h0]
    by_cases h1 : min_capacity ≤ max_lookbehind
    · rw [if_pos h1]
      simp [h1]
    · rw [if_neg h1]
      simp [h0, h1]

/-- C6: `verify_match` returns true iff the source offset is non-negative or
the position is at or past `-source_offset`; equivalently it returns false
exactly when the position falls strictly inside the `-source_offset` bytes
of synthetic padding still present at the front of the window. -/
theorem verify_match_characterization (s : SubjectBuffer) (p : Nat) :
    (s.verify_match p = true ↔
      0 ≤ s.source_offset ∨ -s.source_offset ≤ (p : Int)) ∧
    (s.verify_match p = false ↔
      s.source_offset < 0 ∧ (p : Int) < -s.source_offset) := by
  unfold SubjectBuffer.verify_match
  by_cases h : 0 ≤ s.source_offset
  · rw [if_pos h]
    constructor
    · simp [h]
    · constructor
      · intro hc
        exact absurd hc (by simp)
      · intro hc
        omega
  · rw [if_neg h]
    constructor
    · constructor
      · intro hd
        simp at hd
        omega
      · intro hd
        simp
        omega
    · constructor
      · intro hd
        simp at hd
        omega
      · intro hd
        simp
        omega

/-- C7: construction establishes the window invariants, and every successful
contract-obeying `read` against a well-behaved source preserves them —
afterwards `length ≤ capacity` holds, the capacity has not shrunk, and the
source offset has not decreased, having increased exactly when the call
discarded bytes from the window's head (match position past the lookbehind). -/
theorem window_invariants :
    (∀ min_capacity max_capacity max_lookbehind s0,
      SubjectBuffer.new min_capacity max_capacity max_lookbehind = .ok s0 → Inv s0) ∧
    (∀ s mo srcFn b, Inv s → s.match_offset ≤ mo → mo ≤ s.len → SrcOk srcFn →
      (s.read mo srcFn).2 = .ok b →
      Inv (s.read mo srcFn).1 ∧
      s.buffer.length ≤ (s.read mo srcFn).1.buffer.length ∧
      s.source_offset ≤ (s.read mo srcFn).1.source_offset ∧
      (s.source_offset < (s.read mo srcFn).1.source_offset ↔ s.max_lookbehind < mo)) := by
  constructor
  · intro m M lb s0 h
    unfold SubjectBuffer.new at h
    by_cases h0 : m = 0
    · rw [if_pos h0] at h
      simp at h
    · rw [if_neg h0] at h
      by_cases h1 : m ≤ lb
      · rw [if_pos h1] at h
        simp at h
      · rw [if_neg h1] at h
        injection h with h2
        subst h2
        exact ⟨by simp, le_refl _, le_refl _⟩
  · intro s mo srcFn b hInv hc1 hc2 hsrc hok
    obtain ⟨hI1, hI2, hI3⟩ := hInv
    by_cases hg : mo ≤ s.max_lookbehind
    · by_cases hcap : s.buffer.length < s.min_capacity
      · have hread := read_adjust_ok s mo srcFn _ (adjust_grow_min s mo hg hcap)
        rw [hread] at hok ⊢
        obtain ⟨bytes, hb, hbe, hlen⟩ := fill_ok_cases (growMinState s mo) srcFn b hok
        have hXb : (growMinState s mo).buffer.length = s.min_capacity := by
          simp only [growMinState, copyFromSlice_length, List.length_replicate]
        have hlen2 : ((growMinState s mo).fill srcFn).1.len = s.len + bytes.length := hlen
        have hbnd : bytes.length ≤ s.min_capacity - s.len := by
          have hb2 := hsrc _ _ hb
          simpa only [growMinState, copyFromSlice_length, List.length_replicate] using hb2
        refine ⟨⟨?_, ?_, ?_⟩, ?_, ?_, ?_⟩
        · rw [hlen2, fill_buffer_length, hXb]
          omega
        · rw [fill_max_lookbehind, fill_match_offset]
          show s.max_lookbehind ≤ mo
          omega
        · rw [fill_match_offset, hlen2]
          show mo ≤ s.len + bytes.length
          omega
        · rw [fill_buffer_length, hXb]
          omega
        · rw [fill_source_offset]
          show s.source_offset ≤ s.source_offset
          omega
        · rw [fill_source_offset]
          show s.source_offset < s.source_offset ↔ s.max_lookbehind < mo
          omega
      · by_cases hmax : s.max_capacity < s.buffer.length * 2
        · rw [read_adjust_error s mo srcFn _
            (adjust_capacity_exceeded s mo hg (by omega) hmax)] at hok
          exact absurd hok (by simp)
        · have hread := read_adjust_ok s mo srcFn _
            (adjust_grow_double s mo hg (by omega) (by omega))
          rw [hread] at hok ⊢
          obtain ⟨bytes, hb, hbe, hlen⟩ := fill_ok_cases (growDoubleState s mo) srcFn b hok
          have hXb : (growDoubleState s mo).buffer.length = s.buffer.length * 2 := by
            simp only [growDoubleState, copyFromSlice_length, List.length_replicate]
          have hlen2 : ((growDoubleState s mo).fill srcFn).1.len = s.len + bytes.length := hlen
          have hbnd : bytes.length ≤ s.buffer.length * 2 - s.len := by
            have hb2 := hsrc _ _ hb
            simpa only [growDoubleState, copyFromSlice_length, List.length_replicate] using hb2
          refine ⟨⟨?_, ?_, ?_⟩, ?_, ?_, ?_⟩
          · rw [hlen2, fill_buffer_length, hXb]
            omega
          · rw [fill_max_lookbehind, fill_match_offset]
            show s.max_lookbehind ≤ mo
            omega
          · rw [fill_match_offset, hlen2]
            show mo ≤ s.len + bytes.length
            omega
          · rw [fill_buffer_length, hXb]
            omega
          · rw [fill_source_offset]
            show s.source_offset ≤ s.source_offset
            omega
          · rw [fill_source_offset]
            show s.source_offset < s.source_offset ↔ s.max_lookbehind < mo
            omega
    · have hread := read_adjust_ok s mo srcFn _ (adjust_shift s mo (by omega))
      rw [hread] at hok ⊢
      obtain ⟨bytes, hb, hbe, hlen⟩ := fill_ok_cases (shiftState s mo) srcFn b hok
      have hXb : (shiftState s mo).buffer.length = s.buffer.length := by
        simp only [shiftState, copyFromSlice_length]
      have hlen2 : ((shiftState s mo).fill srcFn).1.len =
          (s.len - (mo - s.max_lookbehind)) + bytes.length := hlen
      have hbnd : bytes.length ≤ s.buffer.length - (s.len - (mo - s.max_lookbehind)) := by
        have hb2 := hsrc _ _ hb
        simpa only [shiftState, copyFromSlice_length] using hb2
      refine ⟨⟨?_, ?_, ?_⟩, ?_, ?_, ?_⟩
      · rw [hlen2, fill_buffer_length, hXb]
        omega
      · rw [fill_max_lookbehind, fill_match_offset]
        show s.max_lookbehind ≤ mo - (mo - s.max_lookbehind)
        omega
      · rw [fill_match_offset, hlen2]
        show mo - (mo - s.max_lookbehind) ≤ (s.len - (mo - s.max_lookbehind)) + bytes.length
        omega
      · rw [fill_buffer_length, hXb]
      · rw [fill_source_offset]
        show s.source_offset ≤ s.source_offset + ((mo - s.max_lookbehind : Nat) : Int)
        omega
      · rw [fill_source_offset]
        show s.source_offset < s.source_offset + ((mo - s.max_lookbehind : Nat) : Int) ↔
          s.max_lookbehind < mo
        omega

/-- Witness for C7: the invariants hold for a freshly constructed window and
are preserved by its first read. -/
theorem window_invariants_witness :
    Inv (⟨[0], 2, 0, 1, 1, 1, -1⟩ : SubjectBuffer) ∧
    Inv ((⟨[0], 2, 0, 1, 1, 1, -1⟩ : SubjectBuffer).read 1
      (fun _ => (Except.ok [] : Except Unit (List Nat)))).1 :=
  ⟨window_invariants.1 2 0 1 ⟨[0], 2, 0, 1, 1, 1, -1⟩ (by decide),
    (window_invariants.2 ⟨[0], 2, 0, 1, 1, 1, -1⟩ 1
      (fun _ => (Except.ok [] : Except Unit (List Nat))) true (by decide) (by decide)
      (by decide) (fun n bytes h => by injection h with h2; rw [← h2]; exact Nat.zero_le n)
      (by decide)).1⟩

/-- C8: immediately after a successful construction the exposed content is
exactly `max_lookbehind` zero bytes, the length equals `max_lookbehind`, the
source offset is `-max_lookbehind`, and `get_absolute_offset 0` equals
`-max_lookbehind`. -/
theorem new_initial_state (min_capacity max_capacity max_lookbehind : Nat)
    (s0 : SubjectBuffer)
    (h : SubjectBuffer.new min_capacity max_capacity max_lookbehind = .ok s0) :
    s0.get_snapshot.buffer = List.replicate max_lookbehind 0 ∧
    s0.len = max_lookbehind ∧
    s0.source_offset = -(max_lookbehind : Int) ∧
    s0.get_absolute_offset 0 = -(max_lookbehind : Int) := by
  unfold SubjectBuffer.new at h
  by_cases h0 : min_capacity = 0
  · rw [if_pos h0] at h
    simp at h
  · rw [if_neg h0] at h
    by_cases h1 : min_capacity ≤ max_lookbehind
    · rw [if_pos h1] at h
      simp at h
    · rw [if_neg h1] at h
      injection h with h2
      subst h2
      refine ⟨?_, rfl, rfl, ?_⟩
      · unfold SubjectBuffer.get_snapshot
        simp [List.take_replicate]
      · unfold SubjectBuffer.get_absolute_offset
        simp

/-- Witness for C8 at the configuration (2, 0, 1). -/
theorem new_initial_state_witness :
    (⟨[0], 2, 0, 1, 1, 1, -1⟩ : SubjectBuffer).get_snapshot.buffer = List.replicate 1 0 ∧
    (⟨[0], 2, 0, 1, 1, 1, -1⟩ : SubjectBuffer).len = 1 ∧
    (⟨[0], 2, 0, 1, 1, 1, -1⟩ : SubjectBuffer).source_offset = -((1 : Nat) : Int) ∧
    (⟨[0], 2, 0, 1, 1, 1, -1⟩ : SubjectBuffer).get_absolute_offset 0 = -((1 : Nat) : Int) :=
  new_initial_state 2 0 1 ⟨[0], 2, 0, 1, 1, 1, -1⟩ (by decide)

/-- C9: the stored match offset equals `max_lookbehind` after construction,
and every successful contract-obeying `read` restores that equality; hence
the snapshot's match offset is the lookbehind and `bytes_to_process` is the
slice of the buffer from `max_lookbehind` to the length. -/
theorem match_offset_lookbehind_invariant :
    (∀ min_capacity max_capacity max_lookbehind s0,
      SubjectBuffer.new min_capacity max_capacity max_lookbehind = .ok s0 →
      s0.match_offset = s0.max_lookbehind) ∧
    (∀ (s : SubjectBuffer) (mo : Nat) (srcFn : Nat → Except Unit (List Nat)) (b : Bool),
      s.match_offset = s.max_lookbehind → s.match_offset ≤ mo →
      mo ≤ s.len → (s.read mo srcFn).2 = .ok b →
      (s.read mo srcFn).1.match_offset = (s.read mo srcFn).1.max_lookbehind ∧
      (s.read mo srcFn).1.get_snapshot.match_offset = (s.read mo srcFn).1.max_lookbehind ∧
      (s.read mo srcFn).1.bytes_to_process =
        ((s.read mo srcFn).1.buffer.drop (s.read mo srcFn).1.max_lookbehind).take
          ((s.read mo srcFn).1.len - (s.read mo srcFn).1.max_lookbehind)) := by
  constructor
  · intro m M lb s0 h
    unfold SubjectBuffer.new at h
    by_cases h0 : m = 0
    · rw [if_pos h0] at h
      simp at h
    · rw [if_neg h0] at h
      by_cases h1 : m ≤ lb
      · rw [if_pos h1] at h
        simp at h
      · rw [if_neg h1] at h
        injection h with h2
        subst h2
        rfl
  · intro s mo srcFn b hinv hc1 hc2 hok
    have e1 : (s.read mo srcFn).1.match_offset = (s.read mo srcFn).1.max_lookbehind := by
      by_cases hg : mo ≤ s.max_lookbehind
      · by_cases hcap : s.buffer.length < s.min_capacity
        · rw [read_adjust_ok s mo srcFn _ (adjust_grow_min s mo hg hcap),
            fill_match_offset, fill_max_lookbehind]
          show mo = s.max_lookbehind
          omega
        · by_cases hmax : s.max_capacity < s.buffer.length * 2
          · rw [read_adjust_error s mo srcFn _
              (adjust_capacity_exceeded s mo hg (by omega) hmax)] at hok
            exact absurd hok (by simp)
          · rw [read_adjust_ok s mo srcFn _
              (adjust_grow_double s mo hg (by omega) (by omega)),
              fill_match_offset, fill_max_lookbehind]
            show mo = s.max_lookbehind
            omega
      · rw [read_adjust_ok s mo srcFn _ (adjust_shift s mo (by omega)),
          fill_match_offset, fill_max_lookbehind]
        show mo - (mo - s.max_lookbehind) = s.max_lookbehind
        omega
    refine ⟨e1, e1, ?_⟩
    unfold SubjectBuffer.bytes_to_process
    rw [e1]

/-- Witness for C9: the first read of a fresh (2, 0, 1) window keeps the
stored match offset at the lookbehind. -/
theorem match_offset_lookbehind_invariant_witness :
    ((⟨[0], 2, 0, 1, 1, 1, -1⟩ : SubjectBuffer).read 1
        (fun _ => (Except.ok [] : Except Unit (List Nat)))).1.match_offset =
      ((⟨[0], 2, 0, 1, 1, 1, -1⟩ : SubjectBuffer).read 1
        (fun _ => (Except.ok [] : Except Unit (List Nat)))).1.max_lookbehind :=
  (match_offset_lookbehind_invariant.2 ⟨[0], 2, 0, 1, 1, 1, -1⟩ 1
    (fun _ => (Except.ok [] : Except Unit (List Nat))) true
    (by decide) (by decide) (by decide) (by decide)).1

/-- C10: under the window invariants and the caller contract every slice
operation inside `read` is in bounds, so the embedded call never takes a
panicking branch. -/
theorem read_slices_in_bounds (s : SubjectBuffer) (mo : Nat)
    (hInv : Inv s) (h1 : s.match_offset ≤ mo) (h2 : mo ≤ s.len) :
    ReadInBounds s mo := by
  obtain ⟨hI1, hI2, hI3⟩ := hInv
  exact ⟨fun hg => ⟨hI1, fun h => by omega, fun hmin hmax => by omega⟩,
    fun hs => ⟨by omega, hI1⟩⟩

/-- Witness for C10 on a fresh (2, 0, 1) window at its first read. -/
theorem read_slices_in_bounds_witness :
    ReadInBounds ⟨[0], 2, 0, 1, 1, 1, -1⟩ 1 :=
  read_slices_in_bounds ⟨[0], 2, 0, 1, 1, 1, -1⟩ 1 (by decide) (by decide) (by decide)

end MatchingBuffer
